import Mathlib

/-!
Shallow embedding of the two Go microservices in `lab2`:
`user-service/main.go` (user registry) and `orders-service/main.go`
(order registry that enriches orders with user data fetched from the
user service over HTTP).

Modelling conventions:
* Go `int` is modelled as `Int` (ids stay tiny; `strconv.Atoi`'s 64-bit
  range check is kept explicitly in `atoi`).
* JSON values are the inductive `Json`; a request/response body is an
  `Option Json` where `none` stands for bytes that are not valid JSON.
* Go's `encoding/json` decoding into the `User`/`Order` structs is
  modelled field by field: object keys are matched case-insensitively
  against the (lowercase) struct tags, later duplicate keys overwrite
  earlier ones, absent keys leave the zero value, `null` leaves the
  current value (and sets a pointer field to nil), and a type mismatch
  is an error.  Decode errors are the inductive `DecErr`.
* The wire behaviour of the remote user service, as observed by one
  `UserServiceClient.GetUserByID` call, is a `WireResult`: either a
  transport failure (connection refused, DNS failure, timeout,
  cancellation -- the `c.Client.Do` error branch) or a status code with
  a body.  (`http.NewRequestWithContext` cannot fail for the fixed
  method "GET" and these URLs, so that branch is not modelled.)
* Each service's mutable state (the map plus the `nextID` counter) is a
  structure; Go map semantics are an association list where insertion
  removes any previous binding of the key and lookup takes the first
  binding.  Handlers are pure functions `... → State → HttpResponse × State`.
-/

inductive Json where
  | null : Json
  | bool (b : Bool) : Json
  | num (n : Int) : Json
  | str (s : String) : Json
  | arr (elems : List Json) : Json
  | obj (fields : List (String × Json)) : Json
deriving Repr

structure User where
  id : Int
  name : String
  email : String
deriving Repr, DecidableEq

structure Order where
  id : Int
  userID : Int
  product : String
  quantity : Int
  status : String
  user : Option User
deriving Repr, DecidableEq

def zeroUser : User := ⟨0, "", ""⟩

def zeroOrder : Order := ⟨0, 0, "", 0, "", none⟩

/-- Decode errors of the modelled `encoding/json` fragment. -/
inductive DecErr where
  | badJson : DecErr
  | intField : DecErr
  | strField : DecErr
  | userField : DecErr
  | topUser : DecErr
  | topOrder : DecErr
deriving Repr, DecidableEq

def decErrMsg : DecErr → String
  | .badJson => "invalid character in request body"
  | .intField => "json: cannot unmarshal value into Go struct field of type int"
  | .strField => "json: cannot unmarshal value into Go struct field of type string"
  | .userField => "json: cannot unmarshal value into Go struct field of type *main.User"
  | .topUser => "json: cannot unmarshal value into Go value of type main.User"
  | .topOrder => "json: cannot unmarshal value into Go value of type main.Order"

/-- ASCII lowercasing of an object key (for Go's case-insensitive JSON
field matching), written on the character list so that it evaluates by
kernel reduction. -/
def asciiLower (s : String) : String := ⟨s.data.map Char.toLower⟩

/-- Byte/character-wise prefix test (Go's path matching on the
`ServeMux` subtree pattern), written on the character list. -/
def strStartsWith (s pre : String) : Bool := pre.data.isPrefixOf s.data

/-- Dropping the pattern prefix from a path (`r.URL.Path[len(prefix):]`),
written on the character list. -/
def strDrop (s : String) (n : Nat) : String := ⟨s.data.drop n⟩

/-- Decode a JSON value into an `int` struct field: a number replaces
the current value, `null` keeps it, anything else is a type error. -/
def setIntField (cur : Int) : Json → Except DecErr Int
  | .null => .ok cur
  | .num n => .ok n
  | .bool _ => .error .intField
  | .str _ => .error .intField
  | .arr _ => .error .intField
  | .obj _ => .error .intField

/-- Decode a JSON value into a `string` struct field. -/
def setStrField (cur : String) : Json → Except DecErr String
  | .null => .ok cur
  | .str s => .ok s
  | .bool _ => .error .strField
  | .num _ => .error .strField
  | .arr _ => .error .strField
  | .obj _ => .error .strField

/-- One step of `encoding/json`'s field loop for the `User` struct:
assign the value `v` arriving under object key `key` (tags: `id`,
`name`, `email`; matching is case-insensitive, `null` leaves the
current value, unknown keys are ignored). -/
def setUserField (u : User) (key : String) (v : Json) : Except DecErr User :=
  let k := asciiLower key
  if k = "id" then (setIntField u.id v).map (fun n => { u with id := n })
  else if k = "name" then (setStrField u.name v).map (fun s => { u with name := s })
  else if k = "email" then (setStrField u.email v).map (fun s => { u with email := s })
  else .ok u

def decodeUserFields (u : User) : List (String × Json) → Except DecErr User
  | [] => .ok u
  | kv :: rest =>
    match setUserField u kv.1 kv.2 with
    | .error e => .error e
    | .ok u' => decodeUserFields u' rest

/-- `json.Decode` into a `User` value: `null` is a no-op on the zero
value, an object runs the field loop, anything else is a type error. -/
def decodeUserJson : Json → Except DecErr User
  | .null => .ok zeroUser
  | .obj fs => decodeUserFields zeroUser fs
  | _ => .error .topUser

def decodeUserBody : Option Json → Except DecErr User
  | none => .error .badJson
  | some j => decodeUserJson j

/-- Decode a JSON value into the `*main.User` pointer field: `null`
sets the pointer to nil, an object is decoded as a `User`, anything
else is a type error. -/
def setUserPtrField : Json → Except DecErr (Option User)
  | .null => .ok none
  | .obj fs => (decodeUserFields zeroUser fs).map some
  | .bool _ => .error .userField
  | .num _ => .error .userField
  | .str _ => .error .userField
  | .arr _ => .error .userField

/-- One step of the field loop for the `Order` struct (tags: `id`,
`user_id`, `product`, `quantity`, `status`, `user`). -/
def setOrderField (o : Order) (key : String) (v : Json) : Except DecErr Order :=
  let k := asciiLower key
  if k = "id" then (setIntField o.id v).map (fun n => { o with id := n })
  else if k = "user_id" then (setIntField o.userID v).map (fun n => { o with userID := n })
  else if k = "product" then (setStrField o.product v).map (fun s => { o with product := s })
  else if k = "quantity" then (setIntField o.quantity v).map (fun n => { o with quantity := n })
  else if k = "status" then (setStrField o.status v).map (fun s => { o with status := s })
  else if k = "user" then (setUserPtrField v).map (fun w => { o with user := w })
  else .ok o

def decodeOrderFields (o : Order) : List (String × Json) → Except DecErr Order
  | [] => .ok o
  | kv :: rest =>
    match setOrderField o kv.1 kv.2 with
    | .error e => .error e
    | .ok o' => decodeOrderFields o' rest

def decodeOrderJson : Json → Except DecErr Order
  | .null => .ok zeroOrder
  | .obj fs => decodeOrderFields zeroOrder fs
  | _ => .error .topOrder

def decodeOrderBody : Option Json → Except DecErr Order
  | none => .error .badJson
  | some j => decodeOrderJson j

/-- JSON encoding of a `User` (struct field order: id, name, email). -/
def encodeUser (u : User) : Json :=
  .obj [("id", .num u.id), ("name", .str u.name), ("email", .str u.email)]

/-- JSON encoding of an `Order`; the `user` field carries
`json:"user,omitempty"`, so a nil snapshot is omitted. -/
def encodeOrder (o : Order) : Json :=
  .obj ([("id", .num o.id), ("user_id", .num o.userID),
         ("product", .str o.product), ("quantity", .num o.quantity),
         ("status", .str o.status)] ++
        (match o.user with
         | none => []
         | some u => [("user", encodeUser u)]))

/-- `strconv.Atoi`: optional sign, at least one decimal digit, value in
the 64-bit signed range; anything else is an error (`none`). -/
def atoi (s : String) : Option Int :=
  let (neg, digits) :=
    match s.data with
    | '-' :: rest => (true, rest)
    | '+' :: rest => (false, rest)
    | cs => (false, cs)
  if digits.isEmpty then none
  else if digits.all Char.isDigit then
    let mag : Nat := digits.foldl (fun a c => a * 10 + (c.toNat - 48)) 0
    let v : Int := if neg then -(mag : Int) else (mag : Int)
    if -(2 ^ 63) ≤ v ∧ v < 2 ^ 63 then some v else none
  else none

/-! ### The peer client (`UserServiceClient.GetUserByID`) -/

/-- What one outbound call observes on the wire. -/
inductive WireResult where
  | transportFailure (cause : String) : WireResult
  | response (status : Nat) (body : Option Json) : WireResult
deriving Repr

/-- The distinct error values `GetUserByID` can return. -/
inductive ClientError where
  | connectionError (cause : String) : ClientError
  | userNotFound : ClientError
  | unexpectedStatus (code : Nat) : ClientError
  | decodeError (e : DecErr) : ClientError
deriving Repr, DecidableEq

/-- `err.Error()` for each `ClientError`, as produced by the
`fmt.Errorf` calls in `GetUserByID`. -/
def clientErrorMsg : ClientError → String
  | .connectionError cause => "failed to connect to user service: " ++ cause
  | .userNotFound => "user not found"
  | .unexpectedStatus code => "user service returned status: " ++ toString code
  | .decodeError e => decErrMsg e

/-- `UserServiceClient.GetUserByID`: transport failure wraps the cause;
404 maps to the dedicated "user not found" error before the generic
non-200 check; a 200 body is decoded as a `User`. -/
def GetUserByID : WireResult → Except ClientError User
  | .transportFailure cause => .error (.connectionError cause)
  | .response status body =>
    if status = 404 then .error .userNotFound
    else if status ≠ 200 then .error (.unexpectedStatus status)
    else
      match decodeUserBody body with
      | .error e => .error (.decodeError e)
      | .ok u => .ok u

/-! ### Stores and HTTP surface -/

/-- Go map lookup on the association-list model (first binding wins;
`mapInsert` keeps at most one binding per key). -/
def mapLookup {α : Type} (m : List (Int × α)) (k : Int) : Option α :=
  match m with
  | [] => none
  | (k', v) :: rest => if k' = k then some v else mapLookup rest k

/-- Go map assignment `m[k] = v`: replaces any existing binding. -/
def mapInsert {α : Type} (k : Int) (v : α) (m : List (Int × α)) : List (Int × α) :=
  (k, v) :: m.filter (fun p => p.1 ≠ k)

inductive Body where
  | text (s : String) : Body
  | json (j : Json) : Body
deriving Repr

structure HttpResponse where
  status : Nat
  body : Body
deriving Repr

/-- `http.Error(w, msg, code)`: plain-text body `msg` plus a newline. -/
def httpError (msg : String) (code : Nat) : HttpResponse :=
  ⟨code, .text (msg ++ "\n")⟩

structure UsersState where
  users : List (Int × User)
  nextID : Int
deriving Repr

structure OrdersState where
  orders : List (Int × Order)
  nextID : Int
deriving Repr

/-- The user service's seeded fixture store. -/
def initUsers : UsersState :=
  { users := [(1, ⟨1, "Самыл Самылыч", "player@example.com"⟩),
              (2, ⟨2, "Михаил Шаманя", "mishutka@example.com"⟩)],
    nextID := 3 }

/-- The order service's seeded fixture store. -/
def initOrders : OrdersState :=
  { orders := [(1, ⟨1, 1, "Laptop", 1, "pending", none⟩),
               (2, ⟨2, 2, "Mouse", 2, "shipped", none⟩)],
    nextID := 3 }

/-- Byte-wise lexicographic comparison of strings (Go's `sort.Strings`
order on the rendered map keys), written on the character lists. -/
def charListLe : List Char → List Char → Bool
  | [], _ => true
  | _ :: _, [] => false
  | a :: as, b :: bs =>
    if a.toNat < b.toNat then true
    else if b.toNat < a.toNat then false
    else charListLe as bs

def strLe (a b : String) : Bool := charListLe a.data b.data

/-- Insertion into a list sorted by the string key (used to model Go's
sorted JSON encoding of map keys). -/
def insortEntry (p : String × Json) : List (String × Json) → List (String × Json)
  | [] => [p]
  | q :: qs => if strLe p.1 q.1 then p :: q :: qs else q :: insortEntry p qs

def sortEntries (l : List (String × Json)) : List (String × Json) :=
  l.foldr insortEntry []

/-- `encoding/json` on a `map[int]User`: a JSON object whose keys are
the decimal ids, sorted as strings. -/
def encodeUsersMap (m : List (Int × User)) : Json :=
  .obj (sortEntries (m.map (fun p => (toString p.1, encodeUser p.2))))

namespace UserSvc

/-- `getUsers`: encodes the `users` map itself (a JSON object). -/
def getUsers (s : UsersState) : HttpResponse × UsersState :=
  (⟨200, .json (encodeUsersMap s.users)⟩, s)

/-- `getUserByID` handler of the user service; `idStr` is the path with
the `/users/` prefix stripped. -/
def getUserByID (idStr : String) (s : UsersState) : HttpResponse × UsersState :=
  match atoi idStr with
  | none => (httpError "Invalid user ID" 400, s)
  | some id =>
    match mapLookup s.users id with
    | none => (httpError "User not found" 404, s)
    | some u => (⟨200, .json (encodeUser u)⟩, s)

/-- `createUser`: decode the body, assign `nextID`, insert, bump the
counter, 201 with the stored record. -/
def createUser (body : Option Json) (s : UsersState) : HttpResponse × UsersState :=
  match decodeUserBody body with
  | .error e => (httpError (decErrMsg e) 400, s)
  | .ok newUser =>
    let stored := { newUser with id := s.nextID }
    (⟨201, .json (encodeUser stored)⟩,
     { users := mapInsert s.nextID stored s.users, nextID := s.nextID + 1 })

/-- The user service's `http.ServeMux`: exact pattern `/users` with a
method switch, subtree pattern `/users/` (no method switch), `/health`,
and the mux's own 404 for everything else. -/
def mux (method path : String) (body : Option Json) (s : UsersState) :
    HttpResponse × UsersState :=
  if path = "/users" then
    if method = "GET" then getUsers s
    else if method = "POST" then createUser body s
    else (httpError "Method not allowed" 405, s)
  else if strStartsWith path "/users/" then getUserByID (strDrop path 7) s
  else if path = "/health" then (⟨200, .text "OK"⟩, s)
  else (⟨404, .text "404 page not found\n"⟩, s)

end UserSvc

namespace OrdersSvc

/-- `getOrders`: copies the map's values into a slice and encodes it (a
JSON array). -/
def getOrders (s : OrdersState) : HttpResponse × OrdersState :=
  (⟨200, .json (.arr (s.orders.map (fun p => encodeOrder p.2)))⟩, s)

/-- `getOrderByID`: parse the id, look the order up, then best-effort
enrichment -- on peer success overwrite the `user` field, on any peer
error return the stored order unchanged, still with status 200.
`peer` gives the wire-level outcome of the one `GetUserByID` call as a
function of the requested user id. -/
def getOrderByID (idStr : String) (peer : Int → WireResult) (s : OrdersState) :
    HttpResponse × OrdersState :=
  match atoi idStr with
  | none => (httpError "Invalid order ID" 400, s)
  | some id =>
    match mapLookup s.orders id with
    | none => (httpError "Order not found" 404, s)
    | some order =>
      let responseOrder :=
        match GetUserByID (peer order.userID) with
        | .ok u => { order with user := some u }
        | .error _ => order
      (⟨200, .json (encodeOrder responseOrder)⟩, s)

/-- `createOrder`: decode the body, validate the owning user via the
peer client (mandatory -- any error is a 400 carrying the cause), then
assign `nextID`, insert, bump the counter, 201 with the stored record. -/
def createOrder (body : Option Json) (peer : Int → WireResult) (s : OrdersState) :
    HttpResponse × OrdersState :=
  match decodeOrderBody body with
  | .error e => (httpError (decErrMsg e) 400, s)
  | .ok newOrder =>
    match GetUserByID (peer newOrder.userID) with
    | .error err =>
      (httpError ("User not found or service unavailable: " ++ clientErrorMsg err) 400, s)
    | .ok _ =>
      let stored := { newOrder with id := s.nextID }
      (⟨201, .json (encodeOrder stored)⟩,
       { orders := mapInsert s.nextID stored s.orders, nextID := s.nextID + 1 })

/-- The order service's `http.ServeMux`: exact `/orders` with a method
switch, subtree `/orders/` (no method switch), `/health`, else 404. -/
def mux (method path : String) (body : Option Json) (peer : Int → WireResult)
    (s : OrdersState) : HttpResponse × OrdersState :=
  if path = "/orders" then
    if method = "GET" then getOrders s
    else if method = "POST" then createOrder body peer s
    else (httpError "Method not allowed" 405, s)
  else if strStartsWith path "/orders/" then getOrderByID (strDrop path 8) peer s
  else if path = "/health" then (⟨200, .text "OK"⟩, s)
  else (⟨404, .text "404 page not found\n"⟩, s)

end OrdersSvc

/-! ### Helper lemmas -/

/-- Extract the JSON payload of a response body (dummy `null` for text). -/
def Body.jsonOf : Body → Json
  | .text _ => .null
  | .json j => j

/-- Does a JSON object carry the given key? -/
def jsonHasKey (j : Json) (k : String) : Bool :=
  match j with
  | .obj fs => fs.any (fun p => p.1 = k)
  | _ => false

/-- All orders stored in the map have a nil `user` snapshot. -/
def allSnapshotsNone (m : List (Int × Order)) : Bool :=
  m.all (fun p => p.2.user.isNone)

/-- Key-uniqueness plus freshness of the counter: the well-formedness
invariant of a record store. -/
def StoreOk {α : Type} (m : List (Int × α)) (next : Int) : Prop :=
  (m.map Prod.fst).Nodup ∧ ∀ k ∈ m.map Prod.fst, k < next

/-- Is a response body a JSON array? -/
def bodyIsJsonArr : Body → Bool
  | .json (.arr _) => true
  | _ => false

/-- The request body (if it is a JSON object) carries no key matching
`k` under `encoding/json`'s case-insensitive field matching. -/
def omitsKeyCI (body : Option Json) (k : String) : Bool :=
  match body with
  | some (.obj fs) => fs.all (fun p => asciiLower p.1 != k)
  | _ => true

/-- A create-order payload that also supplies a `"user"` object. -/
def snapshotPayload : Json :=
  .obj [("user_id", .num 1), ("product", .str "Laptop"), ("quantity", .num 1),
        ("status", .str "pending"),
        ("user", .obj [("id", .num 7), ("name", .str "Snap"),
                       ("email", .str "snap@example.com")])]

/-- A peer user service that answers 200 with a valid user body. -/
def okPeer : Int → WireResult :=
  fun _ => .response 200 (some (encodeUser ⟨1, "Alice Johnson", "alice@example.com"⟩))

/-- A peer user service whose connections always fail. -/
def downPeer : Int → WireResult :=
  fun _ => .transportFailure "connection refused"

theorem mem_insortEntry (p q : String × Json) (l : List (String × Json)) :
    p ∈ insortEntry q l ↔ p = q ∨ p ∈ l := by
  induction l with
  | nil => simp [insortEntry]
  | cons r rs ih =>
    cases h : strLe q.1 r.1 with
    | true => simp [insortEntry, h]
    | false =>
      simp only [insortEntry, h, Bool.false_eq_true, if_false, List.mem_cons, ih]
      tauto

theorem mem_sortEntries (p : String × Json) (l : List (String × Json)) :
    p ∈ sortEntries l ↔ p ∈ l := by
  induction l with
  | nil => simp [sortEntries]
  | cons r rs ih =>
    simp only [sortEntries, List.foldr] at ih ⊢
    rw [mem_insortEntry, ih, List.mem_cons]

theorem jsonHasKey_encodeOrder (o : Order) :
    jsonHasKey (encodeOrder o) "user" = o.user.isSome := by
  cases h : o.user <;> simp [encodeOrder, jsonHasKey, h]

theorem mapLookup_mem {α : Type} {m : List (Int × α)} {k : Int} {v : α}
    (h : mapLookup m k = some v) : (k, v) ∈ m := by
  induction m with
  | nil => simp [mapLookup] at h
  | cons p rest ih =>
    obtain ⟨k', v'⟩ := p
    rw [mapLookup] at h
    split at h
    · rename_i heq
      injection h with h2
      subst heq h2
      exact List.mem_cons_self _ _
    · exact List.mem_cons_of_mem _ (ih h)

theorem StoreOk_insert {α : Type} {m : List (Int × α)} {next : Int} (v : α)
    (h : StoreOk m next) : StoreOk (mapInsert next v m) (next + 1) := by
  obtain ⟨hnd, hlt⟩ := h
  have hsub : List.Sublist ((m.filter (fun p => p.1 ≠ next)).map Prod.fst)
      (m.map Prod.fst) :=
    (List.filter_sublist m).map Prod.fst
  constructor
  · refine List.Nodup.cons ?_ (hnd.sublist hsub)
    intro hmem
    simp only [List.mem_map, List.mem_filter, decide_eq_true_eq] at hmem
    obtain ⟨p, ⟨_, hne⟩, hfst⟩ := hmem
    exact hne hfst
  · intro k hk
    simp only [mapInsert, List.map_cons, List.mem_cons] at hk
    cases hk with
    | inl h => subst h; omega
    | inr h =>
      have : k ∈ m.map Prod.fst := hsub.mem h
      have := hlt k this
      omega

theorem allSnapshotsNone_insert {m : List (Int × Order)} {o : Order} {k : Int}
    (ho : o.user = none) (hm : allSnapshotsNone m = true) :
    allSnapshotsNone (mapInsert k o m) = true := by
  simp only [allSnapshotsNone, mapInsert, List.all_cons, Bool.and_eq_true] at hm ⊢
  refine ⟨by simp [ho], ?_⟩
  simp only [List.all_eq_true] at hm ⊢
  intro p hp
  exact hm p (List.mem_of_mem_filter hp)

theorem allSnapshotsNone_lookup {m : List (Int × Order)} {k : Int} {o : Order}
    (hm : allSnapshotsNone m = true) (h : mapLookup m k = some o) : o.user = none := by
  have := mapLookup_mem h
  simp only [allSnapshotsNone, List.all_eq_true] at hm
  have := hm _ this
  simpa [Option.isNone_iff_eq_none] using this

theorem connError_msg_ne (cause : String) :
    clientErrorMsg (.connectionError cause) ≠ "user not found" := by
  intro h
  have hlen := congrArg String.length h
  rw [clientErrorMsg, String.length_append] at hlen
  have h1 : ("failed to connect to user service: " : String).length = 35 := by decide
  have h2 : ("user not found" : String).length = 14 := by decide
  omega

theorem status_msg_ne (code : Nat) :
    clientErrorMsg (.unexpectedStatus code) ≠ "user not found" := by
  intro h
  have hlen := congrArg String.length h
  rw [clientErrorMsg, String.length_append] at hlen
  have h1 : ("user service returned status: " : String).length = 30 := by decide
  have h2 : ("user not found" : String).length = 14 := by decide
  omega

theorem decode_msg_ne (e : DecErr) :
    clientErrorMsg (.decodeError e) ≠ "user not found" := by
  cases e <;> decide

theorem getOrderByID_state (idStr : String) (peer : Int → WireResult) (s : OrdersState) :
    (OrdersSvc.getOrderByID idStr peer s).2 = s := by
  unfold OrdersSvc.getOrderByID
  split
  · rfl
  · split <;> rfl

theorem getUserByID_state (idStr : String) (s : UsersState) :
    (UserSvc.getUserByID idStr s).2 = s := by
  unfold UserSvc.getUserByID
  split
  · rfl
  · split <;> rfl

theorem getOrderByID_badID {idStr : String} (peer : Int → WireResult) (s : OrdersState)
    (h : atoi idStr = none) :
    OrdersSvc.getOrderByID idStr peer s = (httpError "Invalid order ID" 400, s) := by
  simp [OrdersSvc.getOrderByID, h]

theorem getOrderByID_notFound {idStr : String} {id : Int} (peer : Int → WireResult)
    {s : OrdersState} (hid : atoi idStr = some id) (h : mapLookup s.orders id = none) :
    OrdersSvc.getOrderByID idStr peer s = (httpError "Order not found" 404, s) := by
  simp [OrdersSvc.getOrderByID, hid, h]

theorem getOrderByID_found_ok {idStr : String} {id : Int} {peer : Int → WireResult}
    {s : OrdersState} {o : Order} {u : User} (hid : atoi idStr = some id)
    (ho : mapLookup s.orders id = some o) (hu : GetUserByID (peer o.userID) = .ok u) :
    OrdersSvc.getOrderByID idStr peer s
      = (⟨200, .json (encodeOrder { o with user := some u })⟩, s) := by
  simp [OrdersSvc.getOrderByID, hid, ho, hu]

theorem getOrderByID_found_err {idStr : String} {id : Int} {peer : Int → WireResult}
    {s : OrdersState} {o : Order} {e : ClientError} (hid : atoi idStr = some id)
    (ho : mapLookup s.orders id = some o) (he : GetUserByID (peer o.userID) = .error e) :
    OrdersSvc.getOrderByID idStr peer s = (⟨200, .json (encodeOrder o)⟩, s) := by
  simp [OrdersSvc.getOrderByID, hid, ho, he]

theorem getUserByID_badID {idStr : String} (s : UsersState) (h : atoi idStr = none) :
    UserSvc.getUserByID idStr s = (httpError "Invalid user ID" 400, s) := by
  simp [UserSvc.getUserByID, h]

theorem getUserByID_notFound {idStr : String} {id : Int} {s : UsersState}
    (hid : atoi idStr = some id) (h : mapLookup s.users id = none) :
    UserSvc.getUserByID idStr s = (httpError "User not found" 404, s) := by
  simp [UserSvc.getUserByID, hid, h]

theorem createOrder_decodeErr {body : Option Json} {e : DecErr} (peer : Int → WireResult)
    (s : OrdersState) (h : decodeOrderBody body = .error e) :
    OrdersSvc.createOrder body peer s = (httpError (decErrMsg e) 400, s) := by
  simp [OrdersSvc.createOrder, h]

theorem createOrder_peerErr {body : Option Json} {o : Order} {peer : Int → WireResult}
    {e : ClientError} (s : OrdersState) (hd : decodeOrderBody body = .ok o)
    (he : GetUserByID (peer o.userID) = .error e) :
    OrdersSvc.createOrder body peer s
      = (httpError ("User not found or service unavailable: " ++ clientErrorMsg e) 400, s) := by
  simp [OrdersSvc.createOrder, hd, he]

theorem createOrder_ok {body : Option Json} {o : Order} {peer : Int → WireResult}
    {u : User} (s : OrdersState) (hd : decodeOrderBody body = .ok o)
    (hu : GetUserByID (peer o.userID) = .ok u) :
    OrdersSvc.createOrder body peer s
      = (⟨201, .json (encodeOrder { o with id := s.nextID })⟩,
         ⟨mapInsert s.nextID { o with id := s.nextID } s.orders, s.nextID + 1⟩) := by
  simp [OrdersSvc.createOrder, hd, hu]

theorem createUser_decodeErr {body : Option Json} {e : DecErr} (s : UsersState)
    (h : decodeUserBody body = .error e) :
    UserSvc.createUser body s = (httpError (decErrMsg e) 400, s) := by
  simp [UserSvc.createUser, h]

theorem createUser_ok {body : Option Json} {u : User} (s : UsersState)
    (hd : decodeUserBody body = .ok u) :
    UserSvc.createUser body s
      = (⟨201, .json (encodeUser { u with id := s.nextID })⟩,
         ⟨mapInsert s.nextID { u with id := s.nextID } s.users, s.nextID + 1⟩) := by
  simp [UserSvc.createUser, hd]

theorem getOrderByID_status (idStr : String) (peer : Int → WireResult) (s : OrdersState) :
    (OrdersSvc.getOrderByID idStr peer s).1.status = 400
    ∨ (OrdersSvc.getOrderByID idStr peer s).1.status = 404
    ∨ (OrdersSvc.getOrderByID idStr peer s).1.status = 200 := by
  unfold OrdersSvc.getOrderByID
  split
  · simp [httpError]
  · split <;> simp [httpError]

theorem getUserByID_status (idStr : String) (s : UsersState) :
    (UserSvc.getUserByID idStr s).1.status = 400
    ∨ (UserSvc.getUserByID idStr s).1.status = 404
    ∨ (UserSvc.getUserByID idStr s).1.status = 200 := by
  unfold UserSvc.getUserByID
  split
  · simp [httpError]
  · split <;> simp [httpError]

theorem createOrder_status (body : Option Json) (peer : Int → WireResult) (s : OrdersState) :
    (OrdersSvc.createOrder body peer s).1.status = 400
    ∨ (OrdersSvc.createOrder body peer s).1.status = 201 := by
  unfold OrdersSvc.createOrder
  split
  · simp [httpError]
  · split <;> simp [httpError]

theorem createUser_status (body : Option Json) (s : UsersState) :
    (UserSvc.createUser body s).1.status = 400
    ∨ (UserSvc.createUser body s).1.status = 201 := by
  unfold UserSvc.createUser
  split <;> simp [httpError]

theorem except_map_ok {α β ε : Type} {f : α → β} {x : Except ε α} {y : β}
    (h : x.map f = .ok y) : ∃ a, x = .ok a ∧ y = f a := by
  cases x with
  | error e => simp [Except.map] at h
  | ok a =>
    simp only [Except.map, Except.ok.injEq] at h
    exact ⟨a, rfl, h.symm⟩

theorem setOrderField_userID {o o' : Order} {key : String} {v : Json}
    (h : setOrderField o key v = .ok o') (hk : asciiLower key ≠ "user_id") :
    o'.userID = o.userID := by
  simp only [setOrderField] at h
  repeat' split at h
  all_goals try (injection h with h2; subst h2; rfl)
  all_goals (obtain ⟨a, _, hy⟩ := except_map_ok h; subst hy; rfl)

theorem decodeOrderFields_userID {fs : List (String × Json)} {o o' : Order}
    (h : decodeOrderFields o fs = .ok o')
    (hfs : ∀ kv ∈ fs, asciiLower kv.1 ≠ "user_id") :
    o'.userID = o.userID := by
  induction fs generalizing o with
  | nil =>
    simp only [decodeOrderFields] at h
    injection h with h2
    subst h2; rfl
  | cons kv rest ih =>
    rw [decodeOrderFields] at h
    split at h
    · exact absurd h (by simp)
    · rename_i o1 hset
      have h1 := ih h (fun p hp => hfs p (List.mem_cons_of_mem _ hp))
      have h2 := setOrderField_userID hset (hfs kv (List.mem_cons_self _ _))
      omega

theorem createOrder_state (body : Option Json) (peer : Int → WireResult) (s : OrdersState) :
    (OrdersSvc.createOrder body peer s).2 = s
    ∨ ∃ o, (OrdersSvc.createOrder body peer s).2
        = ⟨mapInsert s.nextID o s.orders, s.nextID + 1⟩ := by
  unfold OrdersSvc.createOrder
  split
  · exact Or.inl rfl
  · split
    · exact Or.inl rfl
    · exact Or.inr ⟨_, rfl⟩

theorem createUser_state (body : Option Json) (s : UsersState) :
    (UserSvc.createUser body s).2 = s
    ∨ ∃ u, (UserSvc.createUser body s).2
        = ⟨mapInsert s.nextID u s.users, s.nextID + 1⟩ := by
  unfold UserSvc.createUser
  split
  · exact Or.inl rfl
  · exact Or.inr ⟨_, rfl⟩

theorem ordersMux_state (method path : String) (body : Option Json)
    (peer : Int → WireResult) (s : OrdersState) :
    (OrdersSvc.mux method path body peer s).2 = s
    ∨ ∃ o, (OrdersSvc.mux method path body peer s).2
        = ⟨mapInsert s.nextID o s.orders, s.nextID + 1⟩ := by
  unfold OrdersSvc.mux
  repeat' split
  · exact Or.inl rfl
  · exact createOrder_state body peer s
  · exact Or.inl rfl
  · exact Or.inl (getOrderByID_state _ peer s)
  · exact Or.inl rfl
  · exact Or.inl rfl

theorem usersMux_state (method path : String) (body : Option Json) (s : UsersState) :
    (UserSvc.mux method path body s).2 = s
    ∨ ∃ u, (UserSvc.mux method path body s).2
        = ⟨mapInsert s.nextID u s.users, s.nextID + 1⟩ := by
  unfold UserSvc.mux
  repeat' split
  · exact Or.inl rfl
  · exact createUser_state body s
  · exact Or.inl rfl
  · exact Or.inl (getUserByID_state _ s)
  · exact Or.inl rfl
  · exact Or.inl rfl

/-! ### Claims -/

/-- Claim C1, counterexample to the claim as stated: a create-order
whose client payload supplies a `"user"` object stores the order WITH a
non-nil `User` snapshot (`orders[nextID] = newOrder` keeps every
decoded field except the id), so the snapshot is not absent from
storage at all times. -/
theorem C1_cex :
    (mapLookup (OrdersSvc.createOrder (some snapshotPayload) okPeer initOrders).2.orders 3).map
        Order.user
      = some (some ⟨7, "Snap", "snap@example.com"⟩) := by decide

/-- Claim C1 (amended): the seeded orders have nil snapshots; a stored
order keeps exactly the snapshot decoded from its creating payload (so
it is nil whenever the payload carried no `"user"` object, and the
all-nil invariant is preserved by such creates); and on a single-order
fetch of an order whose stored snapshot is nil, the response carries a
`"user"` field iff the peer call succeeded. -/
theorem C1_amended :
    (∀ k o, mapLookup initOrders.orders k = some o → o.user = none)
    ∧ (∀ body o peer s u, decodeOrderBody body = .ok o →
        GetUserByID (peer o.userID) = .ok u →
        (OrdersSvc.createOrder body peer s).2.orders
          = mapInsert s.nextID { o with id := s.nextID } s.orders)
    ∧ (∀ body o peer s, decodeOrderBody body = .ok o → o.user = none →
        allSnapshotsNone s.orders = true →
        allSnapshotsNone (OrdersSvc.createOrder body peer s).2.orders = true)
    ∧ (∀ idStr id o peer s, atoi idStr = some id → mapLookup s.orders id = some o →
        o.user = none →
        (jsonHasKey (Body.jsonOf (OrdersSvc.getOrderByID idStr peer s).1.body) "user" = true
          ↔ ∃ u, GetUserByID (peer o.userID) = .ok u)) := by
  refine ⟨?_, ?_, ?_, ?_⟩
  · intro k o h
    simp only [initOrders, mapLookup] at h
    split at h
    · injection h with h2; subst h2; rfl
    · split at h
      · injection h with h2; subst h2; rfl
      · exact absurd h (by simp)
  · intro body o peer s u hd hu
    rw [createOrder_ok s hd hu]
  · intro body o peer s hd ho hall
    cases hr : GetUserByID (peer o.userID) with
    | error e => rw [createOrder_peerErr s hd hr]; exact hall
    | ok u =>
      rw [createOrder_ok s hd hr]
      exact allSnapshotsNone_insert ho hall
  · intro idStr id o peer s hid hlk ho
    cases hr : GetUserByID (peer o.userID) with
    | error e =>
      rw [getOrderByID_found_err hid hlk hr]
      simp only [Body.jsonOf, jsonHasKey_encodeOrder, ho]
      simp
    | ok u =>
      rw [getOrderByID_found_ok hid hlk hr]
      simp only [Body.jsonOf, jsonHasKey_encodeOrder]
      simp

/-- Claim C1 witness: the amended preservation clause applied to a
concrete payload without a `"user"` object. -/
theorem C1_witness :
    allSnapshotsNone (OrdersSvc.createOrder (some (.obj [("user_id", .num 1)]))
        okPeer initOrders).2.orders = true :=
  C1_amended.2.2.1 (some (.obj [("user_id", .num 1)])) ⟨0, 1, "", 0, "", none⟩
    okPeer initOrders rfl rfl rfl

/-- Claim C2, counterexample to the claim as stated: the user service's
list operation encodes the Go map itself, so its body is a JSON object
keyed by the decimal ids -- not a JSON array. -/
theorem C2_cex :
    bodyIsJsonArr (UserSvc.getUsers initUsers).1.body = false
    ∧ (UserSvc.getUsers initUsers).1
        = ⟨200, .json (.obj
            [("1", encodeUser ⟨1, "Самыл Самылыч", "player@example.com"⟩),
             ("2", encodeUser ⟨2, "Михаил Шаманя", "mishutka@example.com"⟩)])⟩ :=
  ⟨rfl, rfl⟩

/-- Claim C2 (amended): both list operations return 200, leave the
store unchanged, and return exactly the current records -- the order
service as a JSON array of the stored orders, the user service as a
JSON object with one entry per stored user, keyed by its decimal id. -/
theorem C2_amended (s : OrdersState) (us : UsersState) :
    ((OrdersSvc.getOrders s).1.status = 200 ∧ (OrdersSvc.getOrders s).2 = s
      ∧ ∃ l, (OrdersSvc.getOrders s).1.body = .json (.arr l)
          ∧ ∀ j, j ∈ l ↔ ∃ k o, (k, o) ∈ s.orders ∧ j = encodeOrder o)
    ∧ ((UserSvc.getUsers us).1.status = 200 ∧ (UserSvc.getUsers us).2 = us
      ∧ ∃ entries, (UserSvc.getUsers us).1.body = .json (.obj entries)
          ∧ ∀ p, p ∈ entries ↔ ∃ k u, (k, u) ∈ us.users ∧ p = (toString k, encodeUser u)) := by
  constructor
  · refine ⟨rfl, rfl, _, rfl, ?_⟩
    intro j
    simp only [List.mem_map]
    constructor
    · rintro ⟨⟨k, o⟩, hm, rfl⟩
      exact ⟨k, o, hm, rfl⟩
    · rintro ⟨k, o, hm, rfl⟩
      exact ⟨(k, o), hm, rfl⟩
  · refine ⟨rfl, rfl, _, rfl, ?_⟩
    intro p
    rw [mem_sortEntries]
    simp only [List.mem_map]
    constructor
    · rintro ⟨⟨k, u⟩, hm, rfl⟩
      exact ⟨k, u, hm, rfl⟩
    · rintro ⟨k, u, hm, rfl⟩
      exact ⟨(k, u), hm, rfl⟩

/-- Claim C2 witness: the amended statement applied to the seeded
stores. -/
theorem C2_witness :
    (OrdersSvc.getOrders initOrders).1.status = 200
    ∧ (UserSvc.getUsers initUsers).1.status = 200 :=
  ⟨(C2_amended initOrders initUsers).1.1, (C2_amended initOrders initUsers).2.1⟩

/-- Claim C3, counterexample to the claim as stated: there are
reachable stores (created via a payload that supplied a `"user"`
object) in which a single-order fetch whose peer call fails still
returns 200 with a `"user"` field present -- the handler returns the
stored order unchanged, not the order stripped of the user field. -/
theorem C3_cex :
    (OrdersSvc.getOrderByID "3" downPeer
        (OrdersSvc.createOrder (some snapshotPayload) okPeer initOrders).2).1.status = 200
    ∧ GetUserByID (downPeer 1) = .error (.connectionError "connection refused")
    ∧ jsonHasKey (Body.jsonOf (OrdersSvc.getOrderByID "3" downPeer
        (OrdersSvc.createOrder (some snapshotPayload) okPeer initOrders).2).1.body) "user"
      = true := ⟨by decide, rfl, by decide⟩

/-- Claim C3 (amended): for a well-formed id, an absent order yields
404 with the store unchanged; a present order yields 200 carrying the
order with the fetched user attached when the peer call succeeds, and
the stored order unchanged on any peer error (hence without a user
field whenever the stored snapshot is nil); the request never fails
because of the peer. -/
theorem C3_amended (idStr : String) (id : Int) (peer : Int → WireResult) (s : OrdersState)
    (hid : atoi idStr = some id) :
    (mapLookup s.orders id = none →
       OrdersSvc.getOrderByID idStr peer s = (httpError "Order not found" 404, s))
    ∧ (∀ o, mapLookup s.orders id = some o →
        (∀ u, GetUserByID (peer o.userID) = .ok u →
           OrdersSvc.getOrderByID idStr peer s
             = (⟨200, .json (encodeOrder { o with user := some u })⟩, s))
        ∧ (∀ e, GetUserByID (peer o.userID) = .error e →
           OrdersSvc.getOrderByID idStr peer s = (⟨200, .json (encodeOrder o)⟩, s))) := by
  refine ⟨fun h => getOrderByID_notFound peer hid h, ?_⟩
  intro o ho
  exact ⟨fun u hu => getOrderByID_found_ok hid ho hu,
         fun e he => getOrderByID_found_err hid ho he⟩

/-- Claim C3 witness: the amended 404 branch at a concrete absent id. -/
theorem C3_witness :
    OrdersSvc.getOrderByID "99" downPeer initOrders
      = (httpError "Order not found" 404, initOrders) :=
  (C3_amended "99" 99 downPeer initOrders (by decide)).1 (by decide)

/-- Claim C4: once the body decodes, any peer-client error makes
create-order answer 400 with a message carrying the underlying cause
and leaves the store untouched; only on peer success is the order
stored (under the fresh id) and returned with 201. -/
theorem C4_create_validation (body : Option Json) (o : Order) (peer : Int → WireResult)
    (s : OrdersState) (hd : decodeOrderBody body = .ok o) :
    (∀ e, GetUserByID (peer o.userID) = .error e →
       OrdersSvc.createOrder body peer s
         = (httpError ("User not found or service unavailable: " ++ clientErrorMsg e) 400, s))
    ∧ (∀ u, GetUserByID (peer o.userID) = .ok u →
       OrdersSvc.createOrder body peer s
         = (⟨201, .json (encodeOrder { o with id := s.nextID })⟩,
            ⟨mapInsert s.nextID { o with id := s.nextID } s.orders, s.nextID + 1⟩)) :=
  ⟨fun _ he => createOrder_peerErr s hd he, fun _ hu => createOrder_ok s hd hu⟩

/-- Claim C4 witness: the rejection branch at a concrete body and an
unreachable peer. -/
theorem C4_witness :
    OrdersSvc.createOrder (some .null) downPeer initOrders
      = (httpError ("User not found or service unavailable: "
          ++ clientErrorMsg (.connectionError "connection refused")) 400, initOrders) :=
  (C4_create_validation (some .null) zeroOrder downPeer initOrders rfl).1
    (.connectionError "connection refused") rfl

/-- Claim C5: the peer client returns the dedicated "user not found"
error exactly for a 404 response (and its text is distinct from every
other error's); a transport failure yields the connection error, any
other non-200 status yields the status error carrying the code, and a
200 body that fails to decode yields the decode error. -/
theorem C5_client_error_taxonomy (w : WireResult) :
    (GetUserByID w = .error .userNotFound ↔ ∃ b, w = .response 404 b)
    ∧ (∀ e : ClientError, clientErrorMsg e = "user not found" ↔ e = .userNotFound)
    ∧ (∀ cause, w = .transportFailure cause →
        GetUserByID w = .error (.connectionError cause))
    ∧ (∀ st b, w = .response st b → st ≠ 404 → st ≠ 200 →
        GetUserByID w = .error (.unexpectedStatus st))
    ∧ (∀ b e, w = .response 200 b → decodeUserBody b = .error e →
        GetUserByID w = .error (.decodeError e))
    ∧ (∀ b u, w = .response 200 b → decodeUserBody b = .ok u →
        GetUserByID w = .ok u) := by
  refine ⟨?_, ?_, ?_, ?_, ?_, ?_⟩
  · cases w with
    | transportFailure c => simp [GetUserByID]
    | response st b =>
      by_cases h4 : st = 404
      · subst h4; simp [GetUserByID]
      · by_cases h2 : st = 200
        · subst h2
          cases hd : decodeUserBody b <;> simp [GetUserByID, hd, h4]
        · simp [GetUserByID, h4, h2]
  · intro e
    cases e with
    | userNotFound => simp [clientErrorMsg]
    | connectionError c => exact iff_of_false (connError_msg_ne c) (by simp)
    | unexpectedStatus code => exact iff_of_false (status_msg_ne code) (by simp)
    | decodeError d => exact iff_of_false (decode_msg_ne d) (by simp)
  · rintro cause rfl
    rfl
  · rintro st b rfl h4 h2
    simp [GetUserByID, h4, h2]
  · rintro b e rfl hd
    simp [GetUserByID, hd]
  · rintro b u rfl hd
    simp [GetUserByID, hd]

/-- Claim C5 witness: a 404 response mapped to the dedicated error. -/
theorem C5_witness :
    GetUserByID (.response 404 none) = .error .userNotFound :=
  (C5_client_error_taxonomy (.response 404 none)).1.mpr ⟨none, rfl⟩

/-- Claim C6: a successful create returns the record under the store's
pre-call counter value (any client-supplied id is overwritten), and
bumps the counter by exactly one; moreover every request on either
service's mux keeps the counter non-decreasing and preserves the store
invariant that ids are distinct and all below the counter -- so ids are
unique and never reused. -/
theorem C6_id_assignment :
    (∀ body u s, decodeUserBody body = .ok u →
       UserSvc.createUser body s
         = (⟨201, .json (encodeUser { u with id := s.nextID })⟩,
            ⟨mapInsert s.nextID { u with id := s.nextID } s.users, s.nextID + 1⟩))
    ∧ (∀ body o peer s u, decodeOrderBody body = .ok o →
        GetUserByID (peer o.userID) = .ok u →
        OrdersSvc.createOrder body peer s
          = (⟨201, .json (encodeOrder { o with id := s.nextID })⟩,
             ⟨mapInsert s.nextID { o with id := s.nextID } s.orders, s.nextID + 1⟩))
    ∧ (∀ method path body s,
        s.nextID ≤ (UserSvc.mux method path body s).2.nextID
        ∧ (StoreOk s.users s.nextID →
           StoreOk (UserSvc.mux method path body s).2.users
             (UserSvc.mux method path body s).2.nextID))
    ∧ (∀ method path body peer s,
        s.nextID ≤ (OrdersSvc.mux method path body peer s).2.nextID
        ∧ (StoreOk s.orders s.nextID →
           StoreOk (OrdersSvc.mux method path body peer s).2.orders
             (OrdersSvc.mux method path body peer s).2.nextID)) := by
  refine ⟨fun body u s hd => createUser_ok s hd,
          fun body o peer s u hd hu => createOrder_ok s hd hu, ?_, ?_⟩
  · intro method path body s
    rcases usersMux_state method path body s with h | ⟨u, h⟩
    · rw [h]
      exact ⟨le_refl _, fun hok => hok⟩
    · constructor
      · rw [h]
        show s.nextID ≤ s.nextID + 1
        omega
      · intro hok
        rw [h]
        exact StoreOk_insert u hok
  · intro method path body peer s
    rcases ordersMux_state method path body peer s with h | ⟨o, h⟩
    · rw [h]
      exact ⟨le_refl _, fun hok => hok⟩
    · constructor
      · rw [h]
        show s.nextID ≤ s.nextID + 1
        omega
      · intro hok
        rw [h]
        exact StoreOk_insert o hok

/-- Claim C6 witness: a concrete create on the seeded user store. -/
theorem C6_witness :
    UserSvc.createUser (some .null) initUsers
      = (⟨201, .json (encodeUser { zeroUser with id := 3 })⟩,
         ⟨mapInsert 3 { zeroUser with id := 3 } initUsers.users, 4⟩) :=
  C6_id_assignment.1 (some .null) zeroUser initUsers rfl

/-- Claim C7: a malformed id or an undecodable body is rejected with
400, and a fetch of an absent id with 404, in every case with the
resulting state equal to the incoming one (and a response independent
of the store's content for the 400 cases) -- no side effects. -/
theorem C7_rejections_no_side_effects :
    (∀ idStr peer s, atoi idStr = none →
       OrdersSvc.getOrderByID idStr peer s = (httpError "Invalid order ID" 400, s))
    ∧ (∀ idStr s, atoi idStr = none →
       UserSvc.getUserByID idStr s = (httpError "Invalid user ID" 400, s))
    ∧ (∀ body peer s e, decodeOrderBody body = .error e →
       OrdersSvc.createOrder body peer s = (httpError (decErrMsg e) 400, s))
    ∧ (∀ body s e, decodeUserBody body = .error e →
       UserSvc.createUser body s = (httpError (decErrMsg e) 400, s))
    ∧ (∀ idStr id peer s, atoi idStr = some id → mapLookup s.orders id = none →
       OrdersSvc.getOrderByID idStr peer s = (httpError "Order not found" 404, s))
    ∧ (∀ idStr id s, atoi idStr = some id → mapLookup s.users id = none →
       UserSvc.getUserByID idStr s = (httpError "User not found" 404, s)) :=
  ⟨fun _ peer s h => getOrderByID_badID peer s h,
   fun _ s h => getUserByID_badID s h,
   fun _ peer s _ h => createOrder_decodeErr peer s h,
   fun _ s _ h => createUser_decodeErr s h,
   fun _ _ peer _ hid h => getOrderByID_notFound peer hid h,
   fun _ _ _ hid h => getUserByID_notFound hid h⟩

/-- Claim C7 witness: a malformed order id at a concrete input. -/
theorem C7_witness :
    OrdersSvc.getOrderByID "abc" downPeer initOrders
      = (httpError "Invalid order ID" 400, initOrders) :=
  C7_rejections_no_side_effects.1 "abc" downPeer initOrders (by decide)

/-- Claim C9: every request whose path lies under `/orders/` or
`/users/` is dispatched to the fetch-by-id handler regardless of the
HTTP method, and a 405 can arise only on the exact collection path with
a method other than GET and POST. -/
theorem C9_subpath_routing :
    (∀ method path body peer s, strStartsWith path "/orders/" = true →
       OrdersSvc.mux method path body peer s
         = OrdersSvc.getOrderByID (strDrop path 8) peer s)
    ∧ (∀ method path body s, strStartsWith path "/users/" = true →
       UserSvc.mux method path body s = UserSvc.getUserByID (strDrop path 7) s)
    ∧ (∀ method path body peer s, (OrdersSvc.mux method path body peer s).1.status = 405 →
       path = "/orders" ∧ method ≠ "GET" ∧ method ≠ "POST")
    ∧ (∀ method path body s, (UserSvc.mux method path body s).1.status = 405 →
       path = "/users" ∧ method ≠ "GET" ∧ method ≠ "POST") := by
  refine ⟨?_, ?_, ?_, ?_⟩
  · intro method path body peer s h
    have hne : ¬ path = "/orders" := by
      rintro rfl
      exact absurd h (by decide)
    unfold OrdersSvc.mux
    rw [if_neg hne, if_pos h]
  · intro method path body s h
    have hne : ¬ path = "/users" := by
      rintro rfl
      exact absurd h (by decide)
    unfold UserSvc.mux
    rw [if_neg hne, if_pos h]
  · intro method path body peer s h
    unfold OrdersSvc.mux at h
    split at h
    · rename_i hp
      split at h
      · simp [OrdersSvc.getOrders] at h
      · split at h
        · rcases createOrder_status body peer s with hc | hc <;>
            exact absurd (hc.symm.trans h) (by decide)
        · rename_i hg hpost
          exact ⟨hp, hg, hpost⟩
    · split at h
      · rcases getOrderByID_status (strDrop path 8) peer s with hc | hc | hc <;>
          exact absurd (hc.symm.trans h) (by decide)
      · split at h
        · simp at h
        · simp at h
  · intro method path body s h
    unfold UserSvc.mux at h
    split at h
    · rename_i hp
      split at h
      · simp [UserSvc.getUsers] at h
      · split at h
        · rcases createUser_status body s with hc | hc <;>
            exact absurd (hc.symm.trans h) (by decide)
        · rename_i hg hpost
          exact ⟨hp, hg, hpost⟩
    · split at h
      · rcases getUserByID_status (strDrop path 7) s with hc | hc | hc <;>
          exact absurd (hc.symm.trans h) (by decide)
      · split at h
        · simp at h
        · simp at h

/-- Claim C9 witness: a DELETE under the orders sub-path is handled as
fetch-by-id. -/
theorem C9_witness :
    OrdersSvc.mux "DELETE" "/orders/1" none downPeer initOrders
      = OrdersSvc.getOrderByID (strDrop "/orders/1" 8) downPeer initOrders :=
  C9_subpath_routing.1 "DELETE" "/orders/1" none downPeer initOrders (by decide)

/-- Claim C10: a JSON body that decodes but carries no `user_id` key
(under the case-insensitive field matching) decodes to owning user id
0; the creation then calls the peer for id 0, succeeds with 201 iff
that lookup succeeds, and otherwise is rejected with 400 carrying the
cause -- the absent field itself is never rejected. -/
theorem C10_missing_user_id (j : Json) (o : Order) (peer : Int → WireResult)
    (s : OrdersState) (hdec : decodeOrderBody (some j) = .ok o)
    (homit : omitsKeyCI (some j) "user_id" = true) :
    o.userID = 0
    ∧ ((OrdersSvc.createOrder (some j) peer s).1.status = 201
        ↔ ∃ u, GetUserByID (peer 0) = .ok u)
    ∧ (∀ e, GetUserByID (peer 0) = .error e →
        OrdersSvc.createOrder (some j) peer s
          = (httpError ("User not found or service unavailable: " ++ clientErrorMsg e)
              400, s)) := by
  have h0 : o.userID = 0 := by
    cases j with
    | null =>
      simp only [decodeOrderBody, decodeOrderJson] at hdec
      injection hdec with h2
      subst h2
      rfl
    | obj fs =>
      simp only [decodeOrderBody, decodeOrderJson] at hdec
      have hfs : ∀ kv ∈ fs, asciiLower kv.1 ≠ "user_id" := by
        intro kv hkv
        simp only [omitsKeyCI, List.all_eq_true] at homit
        have := homit kv hkv
        simpa [bne_iff_ne] using this
      exact (decodeOrderFields_userID hdec hfs).trans rfl
    | bool b => simp [decodeOrderBody, decodeOrderJson] at hdec
    | num n => simp [decodeOrderBody, decodeOrderJson] at hdec
    | str t => simp [decodeOrderBody, decodeOrderJson] at hdec
    | arr l => simp [decodeOrderBody, decodeOrderJson] at hdec
  refine ⟨h0, ?_, ?_⟩
  · constructor
    · intro hst
      cases hr : GetUserByID (peer o.userID) with
      | error e =>
        rw [createOrder_peerErr s hdec hr] at hst
        simp [httpError] at hst
      | ok u =>
        refine ⟨u, ?_⟩
        rw [← h0]
        exact hr
    · rintro ⟨u, hu⟩
      have hu' : GetUserByID (peer o.userID) = .ok u := by
        rw [h0]
        exact hu
      rw [createOrder_ok s hdec hu']
  · intro e he
    have he' : GetUserByID (peer o.userID) = .error e := by
      rw [h0]
      exact he
    exact createOrder_peerErr s hdec he'

/-- Claim C10 witness: a concrete payload without `user_id` and a peer
that answers 200 for every id. -/
theorem C10_witness :
    ({ zeroOrder with product := "X" } : Order).userID = 0
    ∧ (OrdersSvc.createOrder (some (.obj [("product", .str "X")])) okPeer initOrders).1.status
        = 201 := by
  have h := C10_missing_user_id (.obj [("product", .str "X")])
      { zeroOrder with product := "X" } okPeer initOrders rfl (by decide)
  exact ⟨h.1, h.2.1.mpr ⟨⟨1, "Alice Johnson", "alice@example.com"⟩, rfl⟩⟩
